import Mathlib

/-!
Verification of the query-orchestration core of the characters page
(src/src/app/pages/characters/characters.component.ts).

The component wires two reactive input channels (a debounced, de-duplicated
search text stream and a page-number stream) through nested switchMap stages
into HTTP fetches, and translates each fetch resolution into a small
presentation state machine (LOADING / LOADED / NO_DATA_FOUND / ERROR) held in
three signals (characters, totalItems, state).

The embedding below has two layers:

1. Pure stream functions debounceTime / distinctUntilChanged over timestamped
   value lists, modelling the RxJS operators applied to searchControl
   (component lines 79-96).

2. A small-step machine Machine / step modelling the subscription pipeline
   built in ngOnInit (lines 70-145) together with the catchError logic of
   fetchCharacters (lines 148-163).  Events are: a debounced-and-distinct
   search emission arriving at the tap stage, a user page change through
   pageControl, and the delivery of an HTTP resolution for a given request
   generation.  switchMap cancellation is modelled by a generation counter:
   each issued fetch gets a fresh generation, the pending field records the
   only generation whose resolution is still subscribed, and a resolution
   whose generation is not pending is dropped (the HTTP observable was
   unsubscribed).  An error delivered to the subscriber closes the whole
   subscription (terminated), as an RxJS error notification tears down the
   chain.

Two source details are modelled exactly as written, not as the spec words
suggest:
  - fetchCharacters re-throws only status-404 failures; every other failure
    is converted by catchError into a next emission carrying the error object
    (of(err)), so it reaches the success callback, which then stores
    undefined into the characters signal and throws a TypeError while reading
    err.info.count.  The characters signal is therefore an Option, with none
    standing for the JavaScript undefined written on that path.
  - the startWith operators capture pageControl.value once, when ngOnInit
    assembles the pipes; that captured value (the initial page, 1) is the
    page emitted on every re-subscription of the inner page stream.  The
    machine keeps it in the startWithPage field.
-/

namespace CharactersComponent

/-- Character record interface (component lines 16-23). -/
structure Character where
  id : Nat
  name : String
  status : String
  species : String
  gender : String
deriving DecidableEq, Repr

/-- Pagination metadata of the API response (component lines 27-32). -/
structure Info where
  count : Nat
  pages : Nat
  next : Option String
  prev : Option String
deriving DecidableEq, Repr

/-- API response interface (component lines 26-34). -/
structure ApiResponse where
  info : Info
  results : List Character
deriving DecidableEq, Repr

/-- Presentation state enum CharacterState (component lines 37-42). -/
inductive CharacterState where
  | LOADING
  | LOADED
  | NO_DATA_FOUND
  | ERROR
deriving DecidableEq, Repr

/-- An HTTP failure as seen by catchError: only its status code is inspected
by the component.  A transport failure carries status 0 in Angular, which is
just another non-404 value here. -/
structure HttpError where
  status : Nat
deriving DecidableEq, Repr

/-- Raw outcome of one HTTP GET before the catchError of fetchCharacters. -/
inductive FetchResult where
  | success (r : ApiResponse)
  | failure (e : HttpError)
deriving DecidableEq, Repr

/-- What the piped fetch observable delivers to the subscriber: a next
notification carrying a response, a next notification carrying the error
object itself (the of(err) branch of catchError), or an error notification
(the re-thrown 404). -/
inductive Notification where
  | nextResp (r : ApiResponse)
  | nextErr (e : HttpError)
  | errNotif (e : HttpError)
deriving DecidableEq, Repr

/-- The catchError pipe of fetchCharacters (component lines 148-163): a 404
failure is re-thrown to the subscriber, any other failure is converted into a
next emission of the error object via of(err); a success passes through. -/
def fetchCharacters (res : FetchResult) : Notification :=
  match res with
  | .success r => .nextResp r
  | .failure e => if e.status = 404 then .errNotif e else .nextErr e

/-- The three signals of the component (lines 54, 61, 63).  characters is an
Option because the buggy of(err) path stores the undefined field
err.results into the signal; none models that undefined. -/
structure ComponentState where
  characters : Option (List Character)
  totalItems : Nat
  state : CharacterState
deriving DecidableEq, Repr

/-- The two query parameters set on HttpParams (lines 113-115): page as a
decimal string and name as the raw search string.  The structure has exactly
these two fields because exactly two set calls build the params. -/
structure ReqParams where
  page : String
  name : String
deriving DecidableEq, Repr

/-- One issued HTTP request: its switchMap generation and its parameters. -/
structure Request where
  id : Nat
  params : ReqParams
deriving DecidableEq, Repr

/-- Whole-pipeline state: the three signals, the two form-control values, the
page value captured by startWith at ngOnInit, the switchMap generation
counter, the generation of the still-subscribed request (if any), whether the
subscriber has been torn down by an error notification, and the log of all
issued requests. -/
structure Machine where
  comp : ComponentState
  pageValue : Nat
  searchValue : String
  startWithPage : Nat
  gen : Nat
  pending : Option Nat
  terminated : Bool
  requests : List Request
deriving DecidableEq, Repr

/-- External stimuli of the pipeline: a search emission that survived
debounceTime and distinctUntilChanged and reaches the tap stage, a user page
change via pageControl.setValue, and delivery of the HTTP outcome for the
request of a given generation. -/
inductive Event where
  | searchEmit (v : String)
  | userSetPage (p : Nat)
  | resolveEvt (id : Nat) (res : FetchResult)
deriving DecidableEq, Repr

/-- The two mutations performed at the head of the innermost switchMap
(lines 110-111): set state to LOADING and clear the characters signal.  The
totalItems signal is NOT touched there. -/
def beginFetch (c : ComponentState) : ComponentState :=
  { c with state := .LOADING, characters := some [] }

/-- Issue one fetch for emitted page value p (lines 109-117): run beginFetch,
advance the switchMap generation (the previous pending request, if any, is
unsubscribed), and record the request with page p as a decimal string and the
current searchControl value. -/
def issueFetch (m : Machine) (p : Nat) : Machine :=
  { m with
    comp := beginFetch m.comp,
    gen := m.gen + 1,
    pending := some (m.gen + 1),
    requests := m.requests ++ [⟨m.gen + 1, ⟨toString p, m.searchValue⟩⟩] }

/-- The subscriber next callback (lines 125-129) applied to a response. -/
def subscriberNext (r : ApiResponse) : ComponentState :=
  ⟨some r.results, r.info.count, .LOADED⟩

/-- The subscriber error callback (lines 130-141): clear both result signals,
then branch on the 404 status. -/
def subscriberError (e : HttpError) : ComponentState :=
  ⟨some [], 0, if e.status = 404 then .NO_DATA_FOUND else .ERROR⟩

/-- Apply one delivered notification to the machine.  A next notification
carrying a response runs the next callback.  A next notification carrying an
error object runs the next callback on the error object: characters is set to
the undefined err.results, then reading err.info.count throws, so totalItems
and state are left unchanged and, RxJS reporting subscriber-thrown errors
out of band, the subscription survives.  An error notification runs the error
callback and closes the subscription. -/
def applyResolution (m : Machine) (n : Notification) : Machine :=
  match n with
  | .nextResp r => { m with comp := subscriberNext r, pending := none }
  | .nextErr _ => { m with comp := { m.comp with characters := none }, pending := none }
  | .errNotif e => { m with comp := subscriberError e, pending := none, terminated := true }

/-- One pipeline step.  A search emission updates the control value, runs the
tap (lines 85-92: silently reset the page to 1 when it is not 1), then the
outer switchMap re-subscribes the inner page stream, whose startWith
immediately emits the page value captured at ngOnInit, issuing one fetch.  A
user page change updates the control value and, through the live inner
subscription, issues one fetch for that page.  A resolution is dropped when
the subscription is closed or its generation is no longer the pending one;
otherwise the notification produced by the catchError pipe is applied.  After
teardown only the control values still follow the user input. -/
def step (m : Machine) (e : Event) : Machine :=
  match e with
  | .searchEmit v =>
    if m.terminated then { m with searchValue := v }
    else
      let m1 := { m with searchValue := v }
      let m2 := if m1.pageValue ≠ 1 then { m1 with pageValue := 1 } else m1
      issueFetch m2 m2.startWithPage
  | .userSetPage p =>
    if m.terminated then { m with pageValue := p }
    else issueFetch { m with pageValue := p } p
  | .resolveEvt id res =>
    if m.terminated then m
    else if m.pending = some id then applyResolution m (fetchCharacters res)
    else m

/-- Run the machine over a list of events. -/
def run (m : Machine) (evts : List Event) : Machine :=
  evts.foldl step m

/-- Component state right after construction (lines 51-63): both controls at
their initial values, empty characters, zero total, LOADING. -/
def init0 : Machine :=
  ⟨⟨some [], 0, .LOADING⟩, 1, "", 1, 0, none, false, []⟩

/-- State after ngOnInit subscribes loadData: the startWith on the search
pipe fires immediately (bypassing debounce, distinct and tap), the inner page
stream emits its captured startWith value, and the initial fetch is issued
with page 1 and the empty search string. -/
def initMachine : Machine := issueFetch init0 init0.startWithPage

/-- An event that triggers a fetch: a surviving search emission or a user
page change. -/
def IsTrigger : Event → Prop :=
  fun e => (∃ v, e = .searchEmit v) ∨ (∃ p, e = .userSetPage p)

/-- The pending generation, when present, is the current generation.  This
holds at initMachine and is preserved by step. -/
def PendingInv (m : Machine) : Prop :=
  ∀ g, m.pending = some g → g = m.gen

/-- The debounceTime operator (component line 81) over a timestamped input
list: each arriving value schedules an emission after d time units, and a
value arriving before that deadline cancels the pending emission.  Modelled
from the RxJS operator semantics; emissions carry their emission time. -/
def debounceTime (d : Nat) : List (Nat × String) → List (Nat × String)
  | [] => []
  | [(t, v)] => [(t + d, v)]
  | (t, v) :: (t2, w) :: rest =>
    if t2 < t + d then debounceTime d ((t2, w) :: rest)
    else (t + d, v) :: debounceTime d ((t2, w) :: rest)

/-- Helper of distinctUntilChanged: drop every value equal to the most
recently kept value. -/
def distinctAux (prev : String) : List (Nat × String) → List (Nat × String)
  | [] => []
  | (t, v) :: rest => if v = prev then distinctAux prev rest else (t, v) :: distinctAux v rest

/-- The distinctUntilChanged operator (component line 83): the first value is
kept, and thereafter a value equal to the previously kept value is dropped. -/
def distinctUntilChanged : List (Nat × String) → List (Nat × String)
  | [] => []
  | (t, v) :: rest => (t, v) :: distinctAux v rest

/-- The composed search stage of the pipe (lines 79-83): debounce then
de-duplicate. -/
def searchStage (inp : List (Nat × String)) : List (Nat × String) :=
  distinctUntilChanged (debounceTime 200 inp)

/-! Helper lemmas about the machine. -/

theorem run_nil (m : Machine) : run m [] = m := rfl

theorem run_cons (m : Machine) (e : Event) (evts : List Event) :
    run m (e :: evts) = run (step m e) evts := rfl

theorem applyResolution_startWithPage (m : Machine) (n : Notification) :
    (applyResolution m n).startWithPage = m.startWithPage := by
  cases n <;> rfl

theorem applyResolution_gen (m : Machine) (n : Notification) :
    (applyResolution m n).gen = m.gen := by
  cases n <;> rfl

theorem applyResolution_requests (m : Machine) (n : Notification) :
    (applyResolution m n).requests = m.requests := by
  cases n <;> rfl

theorem applyResolution_pending (m : Machine) (n : Notification) :
    (applyResolution m n).pending = none := by
  cases n <;> rfl

theorem step_startWithPage (m : Machine) (e : Event) :
    (step m e).startWithPage = m.startWithPage := by
  cases e with
  | searchEmit v =>
    simp only [step]
    split_ifs <;> simp [issueFetch]
  | userSetPage p =>
    simp only [step]
    split_ifs <;> simp [issueFetch]
  | resolveEvt id res =>
    simp only [step]
    split_ifs <;> simp [applyResolution_startWithPage]

theorem run_startWithPage (m : Machine) (evts : List Event) :
    (run m evts).startWithPage = m.startWithPage := by
  induction evts generalizing m with
  | nil => rfl
  | cons e rest ih => rw [run_cons, ih, step_startWithPage]

theorem step_gen_le (m : Machine) (e : Event) : m.gen ≤ (step m e).gen := by
  cases e with
  | searchEmit v =>
    simp only [step]
    split_ifs <;> simp [issueFetch]
  | userSetPage p =>
    simp only [step]
    split_ifs <;> simp [issueFetch]
  | resolveEvt id res =>
    simp only [step]
    split_ifs <;> simp [applyResolution_gen]

theorem run_gen_le (m : Machine) (evts : List Event) : m.gen ≤ (run m evts).gen := by
  induction evts generalizing m with
  | nil => exact Nat.le_refl _
  | cons e rest ih => exact Nat.le_trans (step_gen_le m e) (ih (step m e))

theorem pendingInv_step (m : Machine) (e : Event) (h : PendingInv m) :
    PendingInv (step m e) := by
  cases e with
  | searchEmit v =>
    intro g hg
    simp only [step] at hg ⊢
    split_ifs at hg ⊢ with h1 h2 <;>
      first
        | exact h g hg
        | simp_all [issueFetch]
  | userSetPage p =>
    intro g hg
    simp only [step] at hg ⊢
    split_ifs at hg ⊢ with h1 <;>
      first
        | exact h g hg
        | simp_all [issueFetch]
  | resolveEvt id res =>
    intro g hg
    simp only [step] at hg ⊢
    split_ifs at hg ⊢ with h1 h2 <;>
      first
        | exact h g hg
        | simp [applyResolution_pending] at hg


theorem pendingInv_run (m : Machine) (evts : List Event) (h : PendingInv m) :
    PendingInv (run m evts) := by
  induction evts generalizing m with
  | nil => exact h
  | cons e rest ih => exact ih (step m e) (pendingInv_step m e h)

theorem resolveEvt_noop (m : Machine) (i : Nat) (res : FetchResult)
    (h : ¬ m.pending = some i) : step m (.resolveEvt i res) = m := by
  simp only [step]
  split_ifs <;> rfl

theorem step_terminated_fixed (m : Machine) (e : Event) (h : m.terminated = true) :
    (step m e).comp = m.comp ∧ (step m e).requests = m.requests ∧
      (step m e).terminated = true := by
  cases e <;> simp [step, h]

theorem run_terminated_fixed (m : Machine) (evts : List Event) (h : m.terminated = true) :
    (run m evts).comp = m.comp ∧ (run m evts).requests = m.requests ∧
      (run m evts).terminated = true := by
  induction evts generalizing m with
  | nil => exact ⟨rfl, rfl, h⟩
  | cons e rest ih =>
    obtain ⟨h1, h2, h3⟩ := step_terminated_fixed m e h
    obtain ⟨g1, g2, g3⟩ := ih (step m e) h3
    exact ⟨g1.trans h1, g2.trans h2, g3⟩

theorem fetchCharacters_errNotif (res : FetchResult) (e : HttpError)
    (h : fetchCharacters res = .errNotif e) : e.status = 404 := by
  cases res with
  | success r => simp [fetchCharacters] at h
  | failure e2 =>
    simp only [fetchCharacters] at h
    split_ifs at h with h4
    cases h
    exact h4

theorem step_requests_resolveEvt (m : Machine) (i : Nat) (res : FetchResult) :
    (step m (.resolveEvt i res)).requests = m.requests := by
  simp only [step]
  split_ifs <;> simp [applyResolution_requests]

theorem initMachine_pending : initMachine.pending = some 1 := rfl

theorem initMachine_pendingInv : PendingInv initMachine := by
  intro g hg
  cases hg
  rfl

theorem toStringOne : toString (1 : Nat) = "1" := rfl

theorem step_state_ne_error (m : Machine) (e : Event)
    (hm : m.comp.state ≠ CharacterState.ERROR) :
    (step m e).comp.state ≠ CharacterState.ERROR := by
  cases e with
  | searchEmit v =>
    by_cases h : m.terminated = true
    · simpa [step, h] using hm
    · simp only [step, h, if_false]
      split_ifs <;> simp_all [issueFetch, beginFetch]
  | userSetPage p =>
    by_cases h : m.terminated = true
    · simpa [step, h] using hm
    · simp [step, h, issueFetch, beginFetch]
  | resolveEvt i res =>
    by_cases h : m.terminated = true
    · simpa [step, h] using hm
    · by_cases hp : m.pending = some i
      · simp only [step, h, if_false, if_pos hp]
        cases hres : fetchCharacters res with
        | nextResp r => simp [applyResolution, subscriberNext]
        | nextErr e2 => simpa [applyResolution] using hm
        | errNotif e2 =>
          have h404 := fetchCharacters_errNotif res e2 hres
          simp [applyResolution, subscriberError, h404]
      · rw [resolveEvt_noop m i res hp]
        exact hm

/-! The claim theorems. -/

/-- C1 (code bug, evaluated at the failing input): a fetch that resolves with
a non-404 failure, here status 500 on the initial request, is routed by
catchError into the subscriber next callback as of(err); the next callback
stores the undefined err.results into the characters signal and throws while
reading err.info.count, so totalItems keeps its value and the state stays
LOADING.  The claim says the state should become ERROR with an empty result
set and count 0; in fact no event sequence whatsoever can ever set the state
to ERROR, because the error callback only ever receives 404 errors. -/
theorem C1_other_failure_never_sets_error :
    (run initMachine [.resolveEvt 1 (.failure ⟨500⟩)]).comp
        = ⟨none, 0, .LOADING⟩ ∧
    ∀ evts : List Event, (run initMachine evts).comp.state ≠ CharacterState.ERROR := by
  refine ⟨rfl, ?_⟩
  intro evts
  have key : ∀ (l : List Event) (m : Machine),
      m.comp.state ≠ CharacterState.ERROR →
      (run m l).comp.state ≠ CharacterState.ERROR := by
    intro l
    induction l with
    | nil => exact fun m hm => hm
    | cons e rest ih => exact fun m hm => ih (step m e) (step_state_ne_error m e hm)
  exact key evts initMachine (by decide)

/-- C2 counterexample: after the initial fetch resolves successfully with
total count 826, a debounced search emission begins a new fetch; at that
instant the state is LOADING and the record list has been cleared, but the
total-item count is still 826, not 0 as the claim requires. -/
theorem C2_total_count_not_cleared_counterexample :
    (run initMachine
        [.resolveEvt 1 (.success ⟨⟨826, 42, none, none⟩, []⟩), .searchEmit "rick"]).comp.state
        = CharacterState.LOADING ∧
    (run initMachine
        [.resolveEvt 1 (.success ⟨⟨826, 42, none, none⟩, []⟩), .searchEmit "rick"]).comp.characters
        = some [] ∧
    ¬ (run initMachine
        [.resolveEvt 1 (.success ⟨⟨826, 42, none, none⟩, []⟩), .searchEmit "rick"]).comp.totalItems
        = 0 := by
  refine ⟨rfl, rfl, ?_⟩
  decide

/-- C2 as amended: at the instant every fetch begins, QueryState is set to
Loading and the record sequence is cleared to empty, while the total-item
count is left unchanged (lines 110-111 touch only the state and characters
signals, never totalItems). -/
theorem C2_fetch_begin_clears_records_keeps_total (m : Machine) (e : Event)
    (hterm : m.terminated = false) (htr : IsTrigger e) :
    (step m e).comp = ⟨some [], m.comp.totalItems, .LOADING⟩ := by
  rcases htr with ⟨v, rfl⟩ | ⟨p, rfl⟩
  · simp only [step, hterm, Bool.false_eq_true, if_false]
    split_ifs <;> simp [issueFetch, beginFetch]
  · simp [step, hterm, issueFetch, beginFetch]

/-- Witness for the amended C2 at the initial machine and a search emission. -/
theorem C2_fetch_begin_clears_records_keeps_total_witness :
    initMachine.terminated = false ∧ IsTrigger (Event.searchEmit "rick") ∧
    (step initMachine (.searchEmit "rick")).comp
        = ⟨some [], initMachine.comp.totalItems, .LOADING⟩ :=
  ⟨rfl, Or.inl ⟨"rick", rfl⟩,
   C2_fetch_begin_clears_records_keeps_total initMachine (.searchEmit "rick") rfl
     (Or.inl ⟨"rick", rfl⟩)⟩

/-- C3: once a resolution is delivered to the subscriber error callback (the
only way this happens is a non-superseded 404), the subscription is closed
and no later event sequence can ever change the signals or issue another
request. -/
theorem C3_error_terminates_pipeline (m : Machine) (i : Nat) (res : FetchResult)
    (e : HttpError) (evts : List Event)
    (hterm : m.terminated = false) (hp : m.pending = some i)
    (herr : fetchCharacters res = .errNotif e) :
    (step m (.resolveEvt i res)).terminated = true ∧
    (run (step m (.resolveEvt i res)) evts).comp = (step m (.resolveEvt i res)).comp ∧
    (run (step m (.resolveEvt i res)) evts).requests
        = (step m (.resolveEvt i res)).requests := by
  have hstep : (step m (.resolveEvt i res)).terminated = true := by
    simp [step, hterm, hp, herr, applyResolution]
  obtain ⟨h1, h2, _⟩ := run_terminated_fixed _ evts hstep
  exact ⟨hstep, h1, h2⟩

/-- Witness for C3: deliver a 404 to the initial request, then a page change;
the closed pipeline ignores it. -/
theorem C3_error_terminates_pipeline_witness :
    initMachine.terminated = false ∧ initMachine.pending = some 1 ∧
    fetchCharacters (.failure ⟨404⟩) = .errNotif ⟨404⟩ ∧
    ((step initMachine (.resolveEvt 1 (.failure ⟨404⟩))).terminated = true ∧
     (run (step initMachine (.resolveEvt 1 (.failure ⟨404⟩))) [.userSetPage 2]).comp
        = (step initMachine (.resolveEvt 1 (.failure ⟨404⟩))).comp ∧
     (run (step initMachine (.resolveEvt 1 (.failure ⟨404⟩))) [.userSetPage 2]).requests
        = (step initMachine (.resolveEvt 1 (.failure ⟨404⟩))).requests) :=
  ⟨rfl, rfl, rfl,
   C3_error_terminates_pipeline initMachine 1 (.failure ⟨404⟩) ⟨404⟩
     [.userSetPage 2] rfl rfl rfl⟩

/-- C6: a non-superseded 404 failure delivered while the subscription is
alive runs the error callback, which clears the record list, zeroes the total
count and sets the state to NO_DATA_FOUND. -/
theorem C6_notfound_sets_no_data_found (m : Machine) (i : Nat) (e : HttpError)
    (hterm : m.terminated = false) (hp : m.pending = some i)
    (h404 : e.status = 404) :
    (step m (.resolveEvt i (.failure e))).comp = ⟨some [], 0, .NO_DATA_FOUND⟩ := by
  simp [step, hterm, hp, fetchCharacters, h404, applyResolution, subscriberError]

/-- Witness for C6 at the initial machine and its initial request. -/
theorem C6_notfound_sets_no_data_found_witness :
    initMachine.terminated = false ∧ initMachine.pending = some 1 ∧
    (step initMachine (.resolveEvt 1 (.failure ⟨404⟩))).comp
        = ⟨some [], 0, .NO_DATA_FOUND⟩ :=
  ⟨rfl, rfl, C6_notfound_sets_no_data_found initMachine 1 ⟨404⟩ rfl rfl rfl⟩

/-- C7: a non-superseded success delivered while the subscription is alive
replaces, in one step, the record list with the payload results, the total
count with the payload info.count, and the state with LOADED. -/
theorem C7_success_sets_loaded (m : Machine) (i : Nat) (r : ApiResponse)
    (hterm : m.terminated = false) (hp : m.pending = some i) :
    (step m (.resolveEvt i (.success r))).comp
        = ⟨some r.results, r.info.count, .LOADED⟩ := by
  simp [step, hterm, hp, fetchCharacters, applyResolution, subscriberNext]

/-- Witness for C7 at the initial machine with a concrete payload. -/
theorem C7_success_sets_loaded_witness :
    initMachine.terminated = false ∧ initMachine.pending = some 1 ∧
    (step initMachine
        (.resolveEvt 1 (.success ⟨⟨826, 42, none, none⟩,
          [⟨1, "Rick Sanchez", "Alive", "Human", "Male"⟩]⟩))).comp
      = ⟨some [⟨1, "Rick Sanchez", "Alive", "Human", "Male"⟩], 826, .LOADED⟩ :=
  ⟨rfl, rfl,
   C7_success_sets_loaded initMachine 1
     ⟨⟨826, 42, none, none⟩, [⟨1, "Rick Sanchez", "Alive", "Human", "Male"⟩]⟩ rfl rfl⟩

/-- C4: when a fetch of generation i is outstanding and a new trigger (search
emission or page change) issues a fresh fetch, the fresh generation becomes
the only pending one and differs from i; the superseded resolution, arriving
after any further event sequence, is dropped without any state change. -/
theorem C4_superseded_resolution_discarded (m : Machine) (i : Nat) (e : Event)
    (evts : List Event) (res : FetchResult)
    (hterm : m.terminated = false) (hinv : PendingInv m)
    (hp : m.pending = some i) (htr : IsTrigger e) :
    (step m e).pending = some (m.gen + 1) ∧ i ≠ m.gen + 1 ∧
    step (run (step m e) evts) (.resolveEvt i res) = run (step m e) evts := by
  have hi : i = m.gen := hinv i hp
  have hpend : (step m e).pending = some (m.gen + 1) := by
    rcases htr with ⟨v, rfl⟩ | ⟨p, rfl⟩
    · simp only [step, hterm, Bool.false_eq_true, if_false]
      split_ifs <;> simp [issueFetch]
    · simp [step, hterm, issueFetch]
  have hgen : (step m e).gen = m.gen + 1 := by
    rcases htr with ⟨v, rfl⟩ | ⟨p, rfl⟩
    · simp only [step, hterm, Bool.false_eq_true, if_false]
      split_ifs <;> simp [issueFetch]
    · simp [step, hterm, issueFetch]
  refine ⟨hpend, by omega, ?_⟩
  apply resolveEvt_noop
  intro hcon
  have hinv2 : PendingInv (run (step m e) evts) :=
    pendingInv_run _ evts (pendingInv_step m e hinv)
  have hieq : i = (run (step m e) evts).gen := hinv2 i hcon
  have hle : (step m e).gen ≤ (run (step m e) evts).gen := run_gen_le _ evts
  rw [hgen] at hle
  omega

/-- Witness for C4: the initial request (generation 1) superseded by a user
page change; its late success resolution is dropped. -/
theorem C4_superseded_resolution_discarded_witness :
    initMachine.terminated = false ∧ PendingInv initMachine ∧
    initMachine.pending = some 1 ∧ IsTrigger (Event.userSetPage 2) ∧
    ((step initMachine (.userSetPage 2)).pending = some (initMachine.gen + 1) ∧
     1 ≠ initMachine.gen + 1 ∧
     step (run (step initMachine (.userSetPage 2)) [])
         (.resolveEvt 1 (.success ⟨⟨826, 42, none, none⟩, []⟩))
       = run (step initMachine (.userSetPage 2)) []) :=
  ⟨rfl, initMachine_pendingInv, rfl, Or.inr ⟨2, rfl⟩,
   C4_superseded_resolution_discarded initMachine 1 (.userSetPage 2) []
     (.success ⟨⟨826, 42, none, none⟩, []⟩) rfl initMachine_pendingInv rfl
     (Or.inr ⟨2, rfl⟩)⟩

/-- C5: a debounced search emission leaves the page value at 1 (silently
resetting it when it was not 1, leaving it untouched when it was) and issues
exactly one fetch, whose page parameter is the decimal string 1. -/
theorem C5_search_emission_one_fetch_page_one (evts : List Event) (v : String)
    (hterm : (run initMachine evts).terminated = false) :
    (step (run initMachine evts) (.searchEmit v)).pageValue = 1 ∧
    (step (run initMachine evts) (.searchEmit v)).requests
      = (run initMachine evts).requests
        ++ [⟨(run initMachine evts).gen + 1, ⟨"1", v⟩⟩] := by
  have hsw : (run initMachine evts).startWithPage = 1 := by
    rw [run_startWithPage]
    rfl
  set m := run initMachine evts with hm
  constructor
  · simp only [step, hterm, Bool.false_eq_true, if_false]
    split_ifs with h1
    · simp [issueFetch]
    · simp only [issueFetch]
      exact not_not.mp h1
  · simp only [step, hterm, Bool.false_eq_true, if_false]
    split_ifs with h1 <;> simp [issueFetch, hsw, toStringOne]

/-- Witness for C5: the first debounced search emission on the fresh
machine. -/
theorem C5_search_emission_one_fetch_page_one_witness :
    initMachine.terminated = false ∧
    ((step initMachine (.searchEmit "rick")).pageValue = 1 ∧
     (step initMachine (.searchEmit "rick")).requests
       = initMachine.requests ++ [⟨initMachine.gen + 1, ⟨"1", "rick"⟩⟩]) :=
  ⟨rfl, C5_search_emission_one_fetch_page_one [] "rick" rfl⟩

/-- C8: every request issued by a step carries exactly the two parameters
page and name (the ReqParams structure), with page the decimal rendering of
the page value at the moment of issue and name the search control value at
that moment; the empty search is sent as the empty string. -/
theorem C8_request_params (evts : List Event) (e : Event) (req : Request)
    (hreq : req ∈ (step (run initMachine evts) e).requests.drop
        (run initMachine evts).requests.length) :
    req.params.page = toString (step (run initMachine evts) e).pageValue ∧
    req.params.name = (step (run initMachine evts) e).searchValue := by
  have hsw : (run initMachine evts).startWithPage = 1 := by
    rw [run_startWithPage]
    rfl
  set m := run initMachine evts with hm
  cases e with
  | searchEmit v =>
    by_cases ht : m.terminated = true
    · simp [step, ht, List.drop_length] at hreq
    · simp only [step, ht, Bool.false_eq_true, if_false] at hreq ⊢
      split_ifs at hreq ⊢ with h1
      · simp only [issueFetch, List.drop_left] at hreq
        simp only [List.mem_singleton] at hreq
        subst hreq
        simp [issueFetch, hsw, toStringOne]
      · simp only [issueFetch, List.drop_left] at hreq
        simp only [List.mem_singleton] at hreq
        subst hreq
        simp only [issueFetch, hsw, toStringOne]
        rw [not_not.mp h1, toStringOne]
        simp
  | userSetPage p =>
    by_cases ht : m.terminated = true
    · simp [step, ht, List.drop_length] at hreq
    · simp only [step, ht, Bool.false_eq_true, if_false] at hreq ⊢
      simp only [issueFetch, List.drop_left] at hreq
      simp only [List.mem_singleton] at hreq
      subst hreq
      simp [issueFetch]
  | resolveEvt i res =>
    rw [step_requests_resolveEvt, List.drop_length] at hreq
    simp at hreq

/-- Witness for C8: the request issued by a user page change to page 2. -/
theorem C8_request_params_witness :
    (⟨2, ⟨"2", ""⟩⟩ : Request) ∈
        (step (run initMachine []) (.userSetPage 2)).requests.drop
          (run initMachine []).requests.length ∧
    ((⟨2, ⟨"2", ""⟩⟩ : Request).params.page
        = toString (step (run initMachine []) (.userSetPage 2)).pageValue ∧
     (⟨2, ⟨"2", ""⟩⟩ : Request).params.name
        = (step (run initMachine []) (.userSetPage 2)).searchValue) :=
  ⟨by decide, C8_request_params [] (.userSetPage 2) ⟨2, ⟨"2", ""⟩⟩ (by decide)⟩

/-! Stream-layer lemmas and claims. -/

theorem chain_le_of_mem (t2 : Nat) (w : String) (rest : List (Nat × String))
    (h : List.Chain' (fun a b => a.1 ≤ b.1) ((t2, w) :: rest)) :
    ∀ u ∈ rest, t2 ≤ u.1 := by
  induction rest generalizing t2 w with
  | nil => intro u hu; cases hu
  | cons hd tl ih =>
    intro u hu
    obtain ⟨t3, x⟩ := hd
    have h1 : t2 ≤ t3 := (List.chain'_cons.mp h).1
    have h2 := (List.chain'_cons.mp h).2
    rcases List.mem_cons.mp hu with rfl | hu2
    · exact h1
    · exact Nat.le_trans h1 (ih t3 x h2 u hu2)

/-- C9: a value reaches the post-debounce stream only if it sits at an input
position after which no further raw value arrives within the 200ms window:
every emission at time s carries the value of an input at time t with
s = t + 200 such that every later input arrives at or after t + 200.
Intermediate values of a burst are therefore never emitted. -/
theorem C9_debounce_emits_only_quiet_values (inp : List (Nat × String))
    (hmono : List.Chain' (fun a b => a.1 ≤ b.1) inp)
    (s : Nat) (v : String) (hmem : (s, v) ∈ debounceTime 200 inp) :
    ∃ t pre suf, s = t + 200 ∧ inp = pre ++ (t, v) :: suf ∧
      ∀ u ∈ suf, t + 200 ≤ u.1 := by
  induction inp with
  | nil => cases hmem
  | cons hd tl ih =>
    obtain ⟨t, v0⟩ := hd
    cases tl with
    | nil =>
      simp only [debounceTime, List.mem_singleton] at hmem
      obtain ⟨hs, hv⟩ := Prod.mk.injEq _ _ _ _ ▸ hmem
      refine ⟨t, [], [], hs, ?_, ?_⟩
      · simp [hv]
      · intro u hu
        cases hu
    | cons hd2 rest =>
      obtain ⟨t2, w⟩ := hd2
      by_cases hlt : t2 < t + 200
      · rw [show debounceTime 200 ((t, v0) :: (t2, w) :: rest)
            = debounceTime 200 ((t2, w) :: rest) from by
          simp [debounceTime, hlt]] at hmem
        obtain ⟨t1, pre, suf, hs, heq, hq⟩ := ih hmono.tail hmem
        exact ⟨t1, (t, v0) :: pre, suf, hs, by rw [List.cons_append, heq], hq⟩
      · rw [show debounceTime 200 ((t, v0) :: (t2, w) :: rest)
            = (t + 200, v0) :: debounceTime 200 ((t2, w) :: rest) from by
          simp [debounceTime, hlt]] at hmem
        rcases List.mem_cons.mp hmem with heq | hmem2
        · obtain ⟨hs, hv⟩ := Prod.mk.injEq _ _ _ _ ▸ heq
          refine ⟨t, [], (t2, w) :: rest, hs, by simp [hv], ?_⟩
          intro u hu
          rcases List.mem_cons.mp hu with rfl | hu2
          · exact Nat.le_of_not_lt hlt
          · exact Nat.le_trans (Nat.le_of_not_lt hlt)
              (chain_le_of_mem t2 w rest hmono.tail u hu2)
        · obtain ⟨t1, pre, suf, hs, heq, hq⟩ := ih hmono.tail hmem2
          exact ⟨t1, (t, v0) :: pre, suf, hs, by rw [List.cons_append, heq], hq⟩

/-- Witness for C9: in the burst a, ab (within 200ms), abc (quiet), only ab
and abc are emitted; the emission of ab at time 300 comes from the input at
time 100 whose successors all arrive at or after 300. -/
theorem C9_debounce_emits_only_quiet_values_witness :
    List.Chain' (fun a b => a.1 ≤ b.1)
        [((0 : Nat), "a"), (100, "ab"), (400, "abc")] ∧
    ((300 : Nat), "ab") ∈ debounceTime 200 [(0, "a"), (100, "ab"), (400, "abc")] ∧
    (∃ t pre suf, 300 = t + 200 ∧
      [((0 : Nat), "a"), (100, "ab"), (400, "abc")] = pre ++ (t, "ab") :: suf ∧
      ∀ u ∈ suf, t + 200 ≤ u.1) :=
  ⟨by simp [List.chain'_cons, List.chain'_singleton],
   by decide,
   C9_debounce_emits_only_quiet_values [(0, "a"), (100, "ab"), (400, "abc")]
     (by simp [List.chain'_cons, List.chain'_singleton]) 300 "ab" (by decide)⟩

theorem distinctAux_sublist (prev : String) (l : List (Nat × String)) :
    (distinctAux prev l).Sublist l := by
  induction l generalizing prev with
  | nil => exact List.Sublist.refl _
  | cons hd tl ih =>
    obtain ⟨t, v⟩ := hd
    simp only [distinctAux]
    split_ifs with h
    · exact (ih prev).cons _
    · exact (ih v).cons₂ _

theorem distinctAux_head_ne (prev : String) (l : List (Nat × String)) :
    ∀ u ∈ (distinctAux prev l).head?, u.2 ≠ prev := by
  induction l generalizing prev with
  | nil => intro u hu; cases hu
  | cons hd tl ih =>
    obtain ⟨t, v⟩ := hd
    simp only [distinctAux]
    split_ifs with h
    · exact ih prev
    · intro u hu
      simp only [List.head?_cons, Option.mem_def, Option.some.injEq] at hu
      rw [← hu]
      exact h

theorem distinctAux_chain (prev : String) (l : List (Nat × String)) :
    List.Chain' (fun a b => a.2 ≠ b.2) (distinctAux prev l) := by
  induction l generalizing prev with
  | nil => exact List.chain'_nil
  | cons hd tl ih =>
    obtain ⟨t, v⟩ := hd
    simp only [distinctAux]
    split_ifs with h
    · exact ih prev
    · refine List.chain'_cons'.mpr ⟨?_, ih v⟩
      intro u hu
      exact fun hc => distinctAux_head_ne v tl u hu hc.symm

/-- C10: the de-duplicated search stage never emits the same value twice in a
row, and invents no emissions: applied to the debounced stream of any raw
input, its output is a sublist of the debounced stream in which consecutive
values always differ, so a repeated equal emission yields at most one
downstream trigger. -/
theorem C10_distinct_suppresses_duplicates (inp : List (Nat × String)) :
    (searchStage inp).Sublist (debounceTime 200 inp) ∧
    List.Chain' (fun a b => a.2 ≠ b.2) (searchStage inp) := by
  unfold searchStage
  constructor
  · cases h : debounceTime 200 inp with
    | nil => simp [distinctUntilChanged]
    | cons hd tl =>
      obtain ⟨t, v⟩ := hd
      simp only [distinctUntilChanged]
      exact (distinctAux_sublist v tl).cons₂ _
  · cases h : debounceTime 200 inp with
    | nil => simp [distinctUntilChanged]
    | cons hd tl =>
      obtain ⟨t, v⟩ := hd
      simp only [distinctUntilChanged]
      refine List.chain'_cons'.mpr ⟨?_, distinctAux_chain v tl⟩
      intro u hu
      exact fun hc => distinctAux_head_ne v tl u hu hc.symm

end CharactersComponent
